import Mathlib

/-!
Shallow embedding of the gardener shoot-to-seed scheduler
(pkg/scheduler/controller/shoot/reconciler.go) and proofs about it.

The pipeline stages (filterUsableSeeds, filterSeedsMatchingLabelSelector,
filterSeedsMatchingProviders, filterSeedsForZonalShootControlPlanes,
filterCandidates, applyStrategy, getSeedWithLeastShootsDeployed) and the
reconcile loop are translated from the source file.  Helper functions that
live elsewhere in the repository (condition lookup, taint toleration,
seed-usage counting, label-selector semantics, CIDR disjointness, the
region distance function) are modelled from the spec; each such definition
says so in its doc comment.

Two aspects of the Go runtime are made explicit:
  - Go map iteration order is randomized, so the error-map stringification
    in filterCandidates receives the iteration order as an extra argument
    (a reordering function applied to the insertion-ordered entry list).
  - The default branch of applyStrategy dereferences the optional shoot
    purpose; a shoot without purpose makes that branch panic.  Panic is
    modelled as the value none of an Option-typed result.
-/

namespace Gardener

/-- A CIDR, modelled from the spec as an inclusive range of addresses;
the disjointness check only needs range overlap. -/
structure Cidr where
  lo : Nat
  hi : Nat
deriving DecidableEq

/-- Fallback pod/service networks a seed supplies to shoots that omit them. -/
structure ShootDefaults where
  pods : Option Cidr
  services : Option Cidr
deriving DecidableEq

/-- Seed networks (spec.networks): nodes optional, pods/services required. -/
structure SeedNetworks where
  nodes : Option Cidr
  pods : Cidr
  services : Cidr
  shootDefaults : Option ShootDefaults
deriving DecidableEq

/-- Shoot networking (spec.networking): all three CIDRs optional. -/
structure ShootNetworking where
  nodes : Option Cidr
  pods : Option Cidr
  services : Option Cidr
deriving DecidableEq

/-- A seed taint (key plus optional value). -/
structure Taint where
  key : String
  value : Option String
deriving DecidableEq

/-- A shoot toleration (key plus optional value). -/
structure Toleration where
  key : String
  value : Option String
deriving DecidableEq

/-- A status condition: a type string and a status string. -/
structure Condition where
  type : String
  status : String
deriving DecidableEq

/-- Modelled from the spec: one requirement of a Kubernetes label selector
(matchExpressions entry) with operator In, NotIn, Exists or DoesNotExist. -/
structure LabelSelectorRequirement where
  key : String
  op : String
  values : List String
deriving DecidableEq

/-- Modelled from the spec: a Kubernetes label selector. -/
structure LabelSelector where
  matchLabels : List (String × String)
  matchExpressions : List LabelSelectorRequirement
deriving DecidableEq

/-- A seed selector: a label selector plus a provider-type list
(the latter only used on the CloudProfile). -/
structure SeedSelector where
  labelSelector : LabelSelector
  providerTypes : List String
deriving DecidableEq

/-- A Seed: the fields of the source data model that the scheduler reads. -/
structure Seed where
  name : String
  labels : List (String × String)
  deletionTimestamp : Option String
  taints : List Taint
  visible : Bool
  providerType : String
  providerRegion : String
  zones : List String
  networks : SeedNetworks
  backup : Bool
  conditions : List Condition
  allocatableShoots : Option Int
deriving DecidableEq

/-- A Shoot: the fields of the source data model that the scheduler reads. -/
structure Shoot where
  name : String
  deletionTimestamp : Option String
  cloudProfileName : String
  region : String
  providerType : String
  networking : ShootNetworking
  tolerations : List Toleration
  seedSelector : Option SeedSelector
  purpose : Option String
  failureToleranceType : Option String
  seedName : Option String
deriving DecidableEq

/-- A CloudProfile: only its seed selector is read by the scheduler. -/
structure CloudProfile where
  seedSelector : Option SeedSelector
deriving DecidableEq

/-- The Go zero value of the Seed struct, returned by the tie-break on an
empty candidate list. -/
def defaultSeed : Seed :=
  { name := ""
    labels := []
    deletionTimestamp := none
    taints := []
    visible := false
    providerType := ""
    providerRegion := ""
    zones := []
    networks := { nodes := none, pods := ⟨0, 0⟩, services := ⟨0, 0⟩, shootDefaults := none }
    backup := false
    conditions := []
    allocatableShoots := none }

/-- Shoot purpose sentinel recognized by the strategy stage. -/
def shootPurposeTesting : String := "testing"

/-- Seed condition type required for usability. -/
def seedBootstrapped : String := "Bootstrapped"

/-- Seed condition type required for usability. -/
def seedGardenletReady : String := "GardenletReady"

/-- Seed condition type required when backup is configured. -/
def seedBackupBucketsReady : String := "BackupBucketsReady"

/-- The SameRegion strategy value. -/
def sameRegionStrategy : String := "SameRegion"

/-- The MinimalDistance strategy value. -/
def minimalDistanceStrategy : String := "MinimalDistance"

/-- Modelled from the spec: condition lookup by type (helper GetCondition,
not under src); returns the first condition with the given type. -/
def getCondition (conds : List Condition) (t : String) : Option Condition :=
  conds.find? (fun c => c.type == t)

/-- A condition of the given type is present with status True. -/
def conditionTrue (conds : List Condition) (t : String) : Bool :=
  match getCondition conds t with
  | none => false
  | some c => c.status == "True"

/-- Translation of verifySeedReadiness: Bootstrapped and GardenletReady must
be True, and BackupBucketsReady as well when backup is configured. -/
def verifySeedReadiness (seed : Seed) : Bool :=
  conditionTrue seed.conditions seedBootstrapped &&
  conditionTrue seed.conditions seedGardenletReady &&
  (!seed.backup || conditionTrue seed.conditions seedBackupBucketsReady)

/-- Translation of isUsableSeed: not deleting, visible, and ready. -/
def isUsableSeed (seed : Seed) : Bool :=
  seed.deletionTimestamp.isNone && seed.visible && verifySeedReadiness seed

/-- Translation of filterUsableSeeds (stage A). -/
def filterUsableSeeds (seedList : List Seed) : Except String (List Seed) :=
  let matchingSeeds := seedList.filter isUsableSeed
  if matchingSeeds.isEmpty then
    let n := seedList.length
    .error ("none of the " ++ toString n ++ " seeds is valid for scheduling (not deleting, visible and ready)")
  else
    .ok matchingSeeds

/-- First value bound to a key in a label map. -/
def lookupLabel (labels : List (String × String)) (key : String) : Option String :=
  (labels.find? (fun kv => kv.1 == key)).map (fun kv => kv.2)

/-- Modelled from the spec: validity of one selector requirement, as checked
by the Kubernetes selector compilation (LabelSelectorAsSelector): In/NotIn
need a non-empty value list, Exists/DoesNotExist an empty one. -/
def requirementValid (r : LabelSelectorRequirement) : Bool :=
  if r.op == "In" || r.op == "NotIn" then !r.values.isEmpty
  else if r.op == "Exists" || r.op == "DoesNotExist" then r.values.isEmpty
  else false

/-- Modelled from the spec: a selector compiles iff every requirement is valid. -/
def selectorValid (ls : LabelSelector) : Bool :=
  ls.matchExpressions.all requirementValid

/-- Modelled from the spec: standard Kubernetes semantics of one requirement. -/
def requirementMatches (labels : List (String × String)) (r : LabelSelectorRequirement) : Bool :=
  if r.op == "In" then
    match lookupLabel labels r.key with
    | some v => r.values.contains v
    | none => false
  else if r.op == "NotIn" then
    match lookupLabel labels r.key with
    | some v => !r.values.contains v
    | none => true
  else if r.op == "Exists" then (lookupLabel labels r.key).isSome
  else if r.op == "DoesNotExist" then (lookupLabel labels r.key).isNone
  else false

/-- Modelled from the spec: standard Kubernetes label-selector matching. -/
def selectorMatches (ls : LabelSelector) (labels : List (String × String)) : Bool :=
  ls.matchLabels.all (fun kv => lookupLabel labels kv.1 == some kv.2) &&
  ls.matchExpressions.all (requirementMatches labels)

/-- Translation of filterSeedsMatchingLabelSelector (stage B): nil selector
passes everything through, a non-compiling selector is a hard error. -/
def filterSeedsMatchingLabelSelector (seedList : List Seed) (seedSelector : Option SeedSelector) (kind : String) : Except String (List Seed) :=
  match seedSelector with
  | none => .ok seedList
  | some ss =>
    if selectorValid ss.labelSelector then
      let matchingSeeds := seedList.filter (fun seed => selectorMatches ss.labelSelector seed.labels)
      if matchingSeeds.isEmpty then
        let n := seedList.length
        .error ("none out of the " ++ toString n ++ " seeds has the matching labels required by seed selector of " ++ kind)
      else .ok matchingSeeds
    else .error ("label selector conversion failed for seed selector of " ++ kind)

/-- Translation of matchProvider. -/
def matchProvider (seedProviderType shootProviderType : String) (enabledTypes : List String) : Bool :=
  if enabledTypes.isEmpty then seedProviderType == shootProviderType
  else enabledTypes.any (fun p => p == "*" || p == seedProviderType)

/-- The provider types enabled by the CloudProfile seed selector. -/
def enabledProviderTypes (cloudProfile : CloudProfile) : List String :=
  match cloudProfile.seedSelector with
  | none => []
  | some ss => ss.providerTypes

/-- Translation of filterSeedsMatchingProviders (stage C). -/
def filterSeedsMatchingProviders (cloudProfile : CloudProfile) (shoot : Shoot) (seedList : List Seed) : Except String (List Seed) :=
  let possibleProviders := enabledProviderTypes cloudProfile
  let matchingSeeds := seedList.filter (fun seed => matchProvider seed.providerType shoot.providerType possibleProviders)
  if matchingSeeds.isEmpty then
    let n := seedList.length
    .error ("none out of the " ++ toString n ++ " seeds has a matching provider for " ++ shoot.providerType)
  else .ok matchingSeeds

/-- Modelled from the spec: helper IsMultiZonalShootControlPlane (not under
src); the shoot declares failure tolerance type zone. -/
def isMultiZonalShootControlPlane (shoot : Shoot) : Bool :=
  shoot.failureToleranceType == some "zone"

/-- Translation of filterSeedsForZonalShootControlPlanes (stage D). -/
def filterSeedsForZonalShootControlPlanes (seedList : List Seed) (shoot : Shoot) : Except String (List Seed) :=
  if isMultiZonalShootControlPlane shoot then
    let seedsWithAtLeastThreeZones := seedList.filter (fun seed => 3 ≤ seed.zones.length)
    if seedsWithAtLeastThreeZones.isEmpty then
      let n := seedList.length
      .error ("none of the " ++ toString n ++ " seeds has at least 3 zones for hosting a shoot control plane with failure tolerance type zone")
    else .ok seedsWithAtLeastThreeZones
  else .ok seedList

/-- Two address ranges intersect. -/
def cidrsOverlap (a b : Cidr) : Bool :=
  !(a.hi < b.lo || b.hi < a.lo)

/-- All ranges in the list are pairwise disjoint. -/
def pairwiseDisjoint : List Cidr → Bool
  | [] => true
  | c :: rest => rest.all (fun d => !cidrsOverlap c d) && pairwiseDisjoint rest

/-- Translation of networksAreDisjointed; the underlying CIDR check
(ValidateNetworkDisjointedness, not under src) is modelled from the spec:
substitute the seed shootDefaults for missing shoot pods/services networks,
then require all present networks to be pairwise disjoint. -/
def networksAreDisjointed (seed : Seed) (shoot : Shoot) : Bool :=
  let shootPodsNetwork :=
    match shoot.networking.pods, seed.networks.shootDefaults with
    | some p, _ => some p
    | none, some d => d.pods
    | none, none => none
  let shootServicesNetwork :=
    match shoot.networking.services, seed.networks.shootDefaults with
    | some s, _ => some s
    | none, some d => d.services
    | none, none => none
  pairwiseDisjoint (List.filterMap id
    [shoot.networking.nodes, shootPodsNetwork, shootServicesNetwork,
     seed.networks.nodes, some seed.networks.pods, some seed.networks.services])

/-- Modelled from the spec: helper TaintsAreTolerated (not under src); every
taint must be tolerated by some toleration with matching key and
value-absent-or-equal semantics. -/
def taintsAreTolerated (taints : List Taint) (tolerations : List Toleration) : Bool :=
  taints.all (fun taint =>
    tolerations.any (fun tol =>
      tol.key == taint.key && (tol.value.isNone || tol.value == taint.value)))

/-- Modelled from the spec: helper CalculateSeedUsage (not under src); the
number of shoots in the snapshot currently bound to the named seed. -/
def seedUsage (shootList : List Shoot) (name : String) : Nat :=
  (shootList.filter (fun s => s.seedName == some name)).length

/-- The per-seed rejection reason of the eligibility stage, or none when the
seed is eligible; checks run in source order: networks, taints, capacity. -/
def seedEligibilityError (shoot : Shoot) (usage : Nat) (seed : Seed) : Option String :=
  if !networksAreDisjointed seed shoot then some "invalid networks"
  else if !taintsAreTolerated seed.taints shoot.tolerations then
    some "shoot does not tolerate the seed taints"
  else
    match seed.allocatableShoots with
    | some k => if k ≤ (usage : Int) then some "seed does not have available capacity for shoots" else none
    | none => none

/-- Translation of errorMapToString over an entry list standing for the Go
map; the caller supplies the iteration order. -/
def errorMapToString (errs : List (String × String)) : String :=
  "\x7b" ++ String.intercalate ", " (errs.map (fun kv => kv.1 ++ " => " ++ kv.2)) ++ "\x7d"

/-- A reordering of the rejection-map entries, standing for the randomized
iteration order of the Go map in errorMapToString. -/
abbrev ErrIter := List (String × String) → List (String × String)

/-- Translation of filterCandidates (stage E): keep eligible seeds in input
order; if none survives, fail with the stringified per-seed rejection map,
whose entry order is the (nondeterministic) map iteration order iter. -/
def filterCandidates (shoot : Shoot) (shootList : List Shoot) (seedList : List Seed) (iter : ErrIter) : Except String (List Seed) :=
  let usage := seedUsage shootList
  let candidates := seedList.filter (fun seed => (seedEligibilityError shoot (usage seed.name) seed).isNone)
  if candidates.isEmpty then
    let errs := seedList.filterMap (fun seed => (seedEligibilityError shoot (usage seed.name) seed).map (fun e => (seed.name, e)))
    let n := seedList.length
    .error ("0/" ++ toString n ++ " seed cluster candidate(s) are eligible for scheduling: " ++ errorMapToString (iter errs))
  else .ok candidates

/-- Modelled from the spec: the region distance helper (not under src) is
Levenshtein edit distance over the two region strings.  The first argument
is recursion fuel; every recursive call shortens the combined input by at
least one character and the fuel by exactly one, so fuel equal to the
combined length is never exhausted. -/
def levAux : Nat → List Char → List Char → Nat
  | _, [], ys => ys.length
  | _, x :: xs, [] => (x :: xs).length
  | 0, _, _ => 0
  | fuel + 1, x :: xs, y :: ys =>
    if x = y then levAux fuel xs ys
    else 1 + Nat.min (levAux fuel xs ys) (Nat.min (levAux fuel (x :: xs) ys) (levAux fuel xs (y :: ys)))

/-- Modelled from the spec: distance between two region strings. -/
def distance (a b : String) : Nat :=
  levAux (a.data.length + b.data.length) a.data b.data

/-- The effective distance of a seed for a shoot: region distance plus 2
when the provider types differ (as computed in the minimal-distance loop). -/
def effectiveDistance (shoot : Shoot) (seed : Seed) : Nat :=
  let d := distance seed.providerRegion shoot.region
  if shoot.providerType == seed.providerType then d else d + 2

/-- Translation of determineCandidatesOfSameProvider. -/
def determineCandidatesOfSameProvider (seedList : List Seed) (shoot : Shoot) : List Seed :=
  seedList.filter (fun seed => seed.providerType == shoot.providerType)

/-- Translation of determineCandidatesWithSameRegionStrategy. -/
def determineCandidatesWithSameRegionStrategy (seedList : List Seed) (shoot : Shoot) : List Seed :=
  seedList.filter (fun seed => seed.providerType == shoot.providerType && seed.providerRegion == shoot.region)

/-- One iteration of the minimal-distance loop: append at the running
minimum, replace below it, skip above it. -/
def minimalDistanceStep (shoot : Shoot) (acc : Nat × List Seed) (seed : Seed) : Nat × List Seed :=
  let dist := effectiveDistance shoot seed
  if dist = acc.1 then (acc.1, acc.2 ++ [seed])
  else if dist < acc.1 then (dist, [seed])
  else acc

/-- Translation of determineCandidatesWithMinimalDistanceStrategy: the loop
starts from the sentinel minimum 1000 and an empty candidate list. -/
def determineCandidatesWithMinimalDistanceStrategy (seeds : List Seed) (shoot : Shoot) : List Seed :=
  (seeds.foldl (minimalDistanceStep shoot) (1000, [])).2

/-- The minimum effective distance over the seeds, folded from the sentinel
1000 exactly as the running minimum of the source loop. -/
def minimalEffectiveDistance (shoot : Shoot) (seeds : List Seed) : Nat :=
  seeds.foldl (fun m seed => Nat.min m (effectiveDistance shoot seed)) 1000

/-- The no-candidate error message of applyStrategy. -/
def noMatchingSeedMsg (shoot : Shoot) (strategy : String) : String :=
  "no matching seed candidate found for Configuration (Cloud Profile " ++ shoot.cloudProfileName ++ ", Region " ++ shoot.region ++ ", SeedDeterminationStrategy " ++ strategy ++ ")"

/-- The nil-candidates check at the end of applyStrategy. -/
def emptyToError (candidates : List Seed) (msg : String) : Except String (List Seed) :=
  if candidates.isEmpty then .error msg else .ok candidates

/-- Translation of applyStrategy (stage F).  The result none models the
panic of the Go default branch, which dereferences the optional shoot
purpose while formatting its error message. -/
def applyStrategy (shoot : Shoot) (seedList : List Seed) (strategy : String) : Option (Except String (List Seed)) :=
  if shoot.purpose == some shootPurposeTesting then
    some (emptyToError (determineCandidatesOfSameProvider seedList shoot) (noMatchingSeedMsg shoot strategy))
  else if strategy == sameRegionStrategy then
    some (emptyToError (determineCandidatesWithSameRegionStrategy seedList shoot) (noMatchingSeedMsg shoot strategy))
  else if strategy == minimalDistanceStrategy then
    some (emptyToError (determineCandidatesWithMinimalDistanceStrategy seedList shoot) (noMatchingSeedMsg shoot strategy))
  else
    match shoot.purpose with
    | none => none
    | some p =>
      some (.error ("failed to determine seed candidates. shoot purpose: " ++ p ++ ", strategy: " ++ strategy ++ ", valid strategies are: [SameRegion MinimalDistance]"))

/-- The running state of the tie-break loop: the best candidate seen so far
with its usage, or none before the first element. -/
def pickLeastAux (usage : String → Nat) : Option (Seed × Nat) → List Seed → Option (Seed × Nat)
  | acc, [] => acc
  | none, seed :: rest => pickLeastAux usage (some (seed, usage seed.name)) rest
  | some (best, m), seed :: rest =>
    if usage seed.name < m then pickLeastAux usage (some (seed, usage seed.name)) rest
    else pickLeastAux usage (some (best, m)) rest

/-- Translation of getSeedWithLeastShootsDeployed: the first seed, in input
order, with the least current usage; the Go zero Seed on an empty input. -/
def getSeedWithLeastShootsDeployed (seedList : List Seed) (shootList : List Shoot) : Seed :=
  match pickLeastAux (seedUsage shootList) none seedList with
  | some (best, _) => best
  | none => defaultSeed

/-- The stage chain A to E of determineSeed: usable seeds, both label
selectors, provider match, zonal topology, eligibility. -/
def determineFilteredSeeds (shoot : Shoot) (seeds : List Seed) (shoots : List Shoot) (cloudProfile : CloudProfile) (iter : ErrIter) : Except String (List Seed) :=
  match filterUsableSeeds seeds with
  | .error e => .error e
  | .ok l1 =>
    match filterSeedsMatchingLabelSelector l1 cloudProfile.seedSelector "CloudProfile" with
    | .error e => .error e
    | .ok l2 =>
      match filterSeedsMatchingLabelSelector l2 shoot.seedSelector "Shoot" with
      | .error e => .error e
      | .ok l3 =>
        match filterSeedsMatchingProviders cloudProfile shoot l3 with
        | .error e => .error e
        | .ok l4 =>
          match filterSeedsForZonalShootControlPlanes l4 shoot with
          | .error e => .error e
          | .ok l5 => filterCandidates shoot shoots l5 iter

/-- Translation of determineSeed over the snapshot inputs: the CloudProfile
lookup (none models NotFound), the stage chain, the strategy stage, and the
tie-break.  The result none models the strategy-stage panic. -/
def determineSeed (shoot : Shoot) (strategy : String) (seeds : List Seed) (shoots : List Shoot) (cloudProfile : Option CloudProfile) (iter : ErrIter) : Option (Except String Seed) :=
  match cloudProfile with
  | none => some (.error ("cloudprofile " ++ shoot.cloudProfileName ++ " not found"))
  | some cp =>
    match determineFilteredSeeds shoot seeds shoots cp iter with
    | .error e => some (.error e)
    | .ok filtered =>
      match applyStrategy shoot filtered strategy with
      | none => none
      | some (.error e) => some (.error e)
      | some (.ok candidates) => some (.ok (getSeedWithLeastShootsDeployed candidates shoots))

/-- An event recorded on the shoot. -/
inductive Event where
  | schedulingSuccessful : String → Event
  | schedulingFailed : String → Event
deriving DecidableEq

/-- The observable outcome of one reconcile: the returned error (none means
done), the recorded events, and the seed name written through the binding
subresource (none means no write). -/
structure ReconcileResult where
  err : Option String
  events : List Event
  write : Option String
deriving DecidableEq

/-- The snapshot a reconcile works on: the requested shoot (none models
NotFound), all seeds, all shoots, and the referenced CloudProfile (none
models NotFound). -/
structure Snapshot where
  shoot : Option Shoot
  seeds : List Seed
  shoots : List Shoot
  cloudProfile : Option CloudProfile

/-- The SchedulingFailed event message. -/
def failedMsg (shoot : Shoot) (e : String) : String :=
  "Failed to schedule shoot " ++ shoot.name ++ ": " ++ e

/-- The SchedulingSuccessful event message. -/
def successMsg (seedName : String) : String :=
  "Scheduled to seed " ++ seedName

/-- Translation of Reconcile: early exits for a missing, already-scheduled
or deleting shoot; otherwise determineSeed, then the binding write and the
success event.  The result none models a panic inside determineSeed. -/
def reconcile (snap : Snapshot) (strategy : String) (iter : ErrIter) : Option ReconcileResult :=
  match snap.shoot with
  | none => some { err := none, events := [], write := none }
  | some shoot =>
    if shoot.seedName.isSome then some { err := none, events := [], write := none }
    else if shoot.deletionTimestamp.isSome then some { err := none, events := [], write := none }
    else
      match determineSeed shoot strategy snap.seeds snap.shoots snap.cloudProfile iter with
      | none => none
      | some (.error e) =>
        some { err := some e, events := [Event.schedulingFailed (failedMsg shoot e)], write := none }
      | some (.ok seed) =>
        some { err := none, events := [Event.schedulingSuccessful (successMsg seed.name)], write := some seed.name }

/-- The per-seed predicate of the label-selector stage, given that the
stage succeeded: a nil selector keeps every seed, a present one must
compile and match the seed labels. -/
def seedKeptBySelector (sel : Option SeedSelector) (seed : Seed) : Bool :=
  match sel with
  | none => true
  | some ss => selectorValid ss.labelSelector && selectorMatches ss.labelSelector seed.labels

/-- The capacity predicate of the eligibility stage: uncapped seeds always
pass, capped ones need current usage strictly below the cap. -/
def capacityOk (usage : Nat) (seed : Seed) : Bool :=
  match seed.allocatableShoots with
  | none => true
  | some k => decide ((usage : Int) < k)

/-- The per-seed predicate of the strategy stage, relative to the list the
stage received (the survivors of the stages before it). -/
def strategyKeeps (shoot : Shoot) (strategy : String) (stageFInput : List Seed) (seed : Seed) : Prop :=
  if shoot.purpose = some shootPurposeTesting then
    seed.providerType = shoot.providerType
  else if strategy = sameRegionStrategy then
    seed.providerType = shoot.providerType ∧ seed.providerRegion = shoot.region
  else if strategy = minimalDistanceStrategy then
    effectiveDistance shoot seed = minimalEffectiveDistance shoot stageFInput
  else False

/-- A concrete seed used by the witnesses: usable, aws in region eu, no
taints, no cap, networks disjoint from the shoot below. -/
def wSeed : Seed :=
  { name := "seed1"
    labels := []
    deletionTimestamp := none
    taints := []
    visible := true
    providerType := "aws"
    providerRegion := "eu"
    zones := []
    networks := { nodes := some ⟨30, 39⟩, pods := ⟨40, 49⟩, services := ⟨50, 59⟩, shootDefaults := none }
    backup := false
    conditions := [⟨"Bootstrapped", "True"⟩, ⟨"GardenletReady", "True"⟩]
    allocatableShoots := none }

/-- A concrete unscheduled shoot used by the witnesses. -/
def wShoot : Shoot :=
  { name := "shoot1"
    deletionTimestamp := none
    cloudProfileName := "cp1"
    region := "eu"
    providerType := "aws"
    networking := { nodes := some ⟨0, 9⟩, pods := some ⟨10, 19⟩, services := some ⟨20, 29⟩ }
    tolerations := []
    seedSelector := none
    purpose := none
    failureToleranceType := none
    seedName := none }

/-- A concrete cloud profile without a seed selector. -/
def wProfile : CloudProfile := { seedSelector := none }

/-- The snapshot of the happy-path witness scenario. -/
def wSnap : Snapshot :=
  { shoot := some wShoot, seeds := [wSeed], shoots := [], cloudProfile := some wProfile }

/-- The reconcile outcome of the happy-path witness scenario. -/
def wRes : ReconcileResult :=
  { err := none
    events := [Event.schedulingSuccessful "Scheduled to seed seed1"]
    write := some "seed1" }

/-- A seed of a different provider in the same region: effective distance 2. -/
def mSeed2 : Seed := { wSeed with name := "m2", providerType := "gcp" }

/-- A capped seed publishing room for one shoot. -/
def kSeed : Seed := { wSeed with name := "k1", allocatableShoots := some 1 }

/-- A shoot carrying a present-but-empty seedName. -/
def eShoot : Shoot := { wShoot with seedName := some "" }

/-- The snapshot of the present-but-empty seedName scenario. -/
def eSnap : Snapshot :=
  { shoot := some eShoot, seeds := [wSeed], shoots := [], cloudProfile := some wProfile }

/-- Shoots already bound to the witness seeds: two on seed1, one on m2. -/
def bShoots : List Shoot :=
  [{ wShoot with name := "b1", seedName := some "seed1" },
   { wShoot with name := "b2", seedName := some "seed1" },
   { wShoot with name := "b3", seedName := some "m2" }]

/-- A usable seed carrying a taint the witness shoot does not tolerate. -/
def tSeed1 : Seed := { wSeed with name := "t1", taints := [⟨"quarantine", none⟩] }

/-- A second usable seed carrying the same intolerable taint. -/
def tSeed2 : Seed := { wSeed with name := "t2", taints := [⟨"quarantine", none⟩] }

/-- The taint rejection reason of the eligibility stage. -/
def tMsg : String := "shoot does not tolerate the seed taints"

/-- The rejection map entries of the two-tainted-seed scenario, in seed
insertion order. -/
def c9errs : List (String × String) := [("t1", tMsg), ("t2", tMsg)]

/-- The eligibility-stage failure text under the identity map order. -/
def c9msgA : String :=
  "0/2 seed cluster candidate(s) are eligible for scheduling: " ++ errorMapToString c9errs

/-- The eligibility-stage failure text under the reversed map order. -/
def c9msgB : String :=
  "0/2 seed cluster candidate(s) are eligible for scheduling: " ++ errorMapToString c9errs.reverse

/-- The quiet outcome: done, no event, no write. -/
def noopRes : ReconcileResult := { err := none, events := [], write := none }

theorem filterUsableSeeds_ok {seeds out : List Seed} (h : filterUsableSeeds seeds = .ok out) :
    out = seeds.filter isUsableSeed := by
  simp only [filterUsableSeeds] at h
  split at h
  · cases h
  · cases h; rfl

theorem filterSeedsMatchingLabelSelector_mem {l : List Seed} {sel : Option SeedSelector} {kind : String} {out : List Seed}
    (h : filterSeedsMatchingLabelSelector l sel kind = .ok out) :
    ∀ x ∈ out, x ∈ l ∧ seedKeptBySelector sel x = true := by
  intro x hx
  cases sel with
  | none =>
    simp only [filterSeedsMatchingLabelSelector] at h
    cases h
    exact ⟨hx, rfl⟩
  | some ss =>
    simp only [filterSeedsMatchingLabelSelector] at h
    split at h
    · next hvalid =>
      split at h
      · cases h
      · cases h
        rcases List.mem_filter.mp hx with ⟨hmem, hmatch⟩
        exact ⟨hmem, by simp [seedKeptBySelector, hvalid, hmatch]⟩
    · cases h

theorem filterSeedsMatchingProviders_mem {cp : CloudProfile} {shoot : Shoot} {l out : List Seed}
    (h : filterSeedsMatchingProviders cp shoot l = .ok out) :
    ∀ x ∈ out, x ∈ l ∧ matchProvider x.providerType shoot.providerType (enabledProviderTypes cp) = true := by
  intro x hx
  simp only [filterSeedsMatchingProviders] at h
  split at h
  · cases h
  · cases h
    exact List.mem_filter.mp hx

theorem filterSeedsForZonalShootControlPlanes_mem {l out : List Seed} {shoot : Shoot}
    (h : filterSeedsForZonalShootControlPlanes l shoot = .ok out) :
    ∀ x ∈ out, x ∈ l ∧ (isMultiZonalShootControlPlane shoot = true → 3 ≤ x.zones.length) := by
  intro x hx
  simp only [filterSeedsForZonalShootControlPlanes] at h
  split at h
  · split at h
    · cases h
    · cases h
      rcases List.mem_filter.mp hx with ⟨hmem, hz⟩
      exact ⟨hmem, fun _ => by simpa using hz⟩
  · next hmz =>
    cases h
    exact ⟨hx, fun hc => absurd hc hmz⟩

theorem seedEligibilityError_none_iff {shoot : Shoot} {usage : Nat} {seed : Seed} :
    seedEligibilityError shoot usage seed = none ↔
      (networksAreDisjointed seed shoot = true ∧
       taintsAreTolerated seed.taints shoot.tolerations = true ∧
       capacityOk usage seed = true) := by
  unfold seedEligibilityError capacityOk
  cases hd : networksAreDisjointed seed shoot with
  | false => simp [hd]
  | true =>
    cases ht : taintsAreTolerated seed.taints shoot.tolerations with
    | false => simp [ht]
    | true =>
      simp only [ht, hd, Bool.not_true, Bool.false_eq_true, if_false]
      cases hk : seed.allocatableShoots with
      | none => simp
      | some k =>
        by_cases hle : k ≤ (usage : Int)
        · simp [hle]
        · simp [hle]
          omega

theorem filterCandidates_ok {shoot : Shoot} {shoots : List Shoot} {seeds : List Seed} {iter : ErrIter} {out : List Seed}
    (h : filterCandidates shoot shoots seeds iter = .ok out) :
    out = seeds.filter (fun seed => (seedEligibilityError shoot (seedUsage shoots seed.name) seed).isNone) := by
  simp only [filterCandidates] at h
  split at h
  · cases h
  · cases h; rfl

theorem filterCandidates_ok_iter {shoot : Shoot} {shoots : List Shoot} {seeds : List Seed} {iter1 iter2 : ErrIter} {out : List Seed}
    (h : filterCandidates shoot shoots seeds iter1 = .ok out) :
    filterCandidates shoot shoots seeds iter2 = .ok out := by
  simp only [filterCandidates] at h ⊢
  split at h
  · cases h
  · next hne =>
    rw [if_neg hne]
    exact h

theorem filterCandidates_mem {shoot : Shoot} {shoots : List Shoot} {seeds : List Seed} {iter : ErrIter} {out : List Seed}
    (h : filterCandidates shoot shoots seeds iter = .ok out) :
    ∀ x ∈ out, x ∈ seeds ∧
      networksAreDisjointed x shoot = true ∧
      taintsAreTolerated x.taints shoot.tolerations = true ∧
      capacityOk (seedUsage shoots x.name) x = true := by
  intro x hx
  rw [filterCandidates_ok h] at hx
  rcases List.mem_filter.mp hx with ⟨hmem, helig⟩
  exact ⟨hmem, seedEligibilityError_none_iff.mp (Option.isNone_iff_eq_none.mp helig)⟩

theorem foldl_min_le (shoot : Shoot) (l : List Seed) (m : Nat) :
    l.foldl (fun a s => Nat.min a (effectiveDistance shoot s)) m ≤ m := by
  induction l generalizing m with
  | nil => exact le_refl m
  | cons x rest ih =>
    simp only [List.foldl_cons]
    exact le_trans (ih (Nat.min m (effectiveDistance shoot x))) (Nat.min_le_left _ _)

theorem minimalDistanceAux (shoot : Shoot) (l : List Seed) :
    ∀ (m : Nat) (cs : List Seed),
      l.foldl (minimalDistanceStep shoot) (m, cs) =
        (l.foldl (fun a s => Nat.min a (effectiveDistance shoot s)) m,
         (if l.foldl (fun a s => Nat.min a (effectiveDistance shoot s)) m = m then cs else []) ++
           l.filter (fun s => effectiveDistance shoot s == l.foldl (fun a s => Nat.min a (effectiveDistance shoot s)) m)) := by
  induction l with
  | nil => intro m cs; simp
  | cons x rest ih =>
    intro m cs
    simp only [List.foldl_cons, List.filter_cons]
    by_cases hd : effectiveDistance shoot x = m
    · have hmin : Nat.min m (effectiveDistance shoot x) = m := by
        rw [hd]; exact min_self m
      rw [show minimalDistanceStep shoot (m, cs) x = (m, cs ++ [x]) from by
            simp [minimalDistanceStep, hd]]
      simp only [hmin]
      rw [ih m (cs ++ [x])]
      by_cases hM : rest.foldl (fun a s => Nat.min a (effectiveDistance shoot s)) m = m
      · have hbeq : (effectiveDistance shoot x ==
            rest.foldl (fun a s => Nat.min a (effectiveDistance shoot s)) m) = true := by
          simp [hd, hM]
        simp only [if_pos hM, hbeq, if_true, Prod.mk.injEq, true_and]
        simp
      · have hbeq : (effectiveDistance shoot x ==
            rest.foldl (fun a s => Nat.min a (effectiveDistance shoot s)) m) = false := by
          simp only [beq_eq_false_iff_ne, ne_eq, hd]
          exact fun hc => hM hc.symm
        simp only [if_neg hM, hbeq, if_false, Prod.mk.injEq, true_and]
        simp
    · by_cases hlt : effectiveDistance shoot x < m
      · have hmin : Nat.min m (effectiveDistance shoot x) = effectiveDistance shoot x :=
          min_eq_right hlt.le
        rw [show minimalDistanceStep shoot (m, cs) x = (effectiveDistance shoot x, [x]) from by
            simp [minimalDistanceStep, hd, hlt]]
        simp only [hmin]
        rw [ih (effectiveDistance shoot x) [x]]
        have hMle : rest.foldl (fun a s => Nat.min a (effectiveDistance shoot s)) (effectiveDistance shoot x) ≤ effectiveDistance shoot x :=
          foldl_min_le shoot rest _
        have hMm : rest.foldl (fun a s => Nat.min a (effectiveDistance shoot s)) (effectiveDistance shoot x) ≠ m := by
          omega
        by_cases hM : rest.foldl (fun a s => Nat.min a (effectiveDistance shoot s)) (effectiveDistance shoot x) = effectiveDistance shoot x
        · have hbeq : (effectiveDistance shoot x ==
              rest.foldl (fun a s => Nat.min a (effectiveDistance shoot s)) (effectiveDistance shoot x)) = true := by
            simp [hM]
          simp only [if_pos hM, if_neg hMm, hbeq, if_true, Prod.mk.injEq, true_and]
          simp
        · have hbeq : (effectiveDistance shoot x ==
              rest.foldl (fun a s => Nat.min a (effectiveDistance shoot s)) (effectiveDistance shoot x)) = false := by
            simp only [beq_eq_false_iff_ne, ne_eq]
            exact fun hc => hM hc.symm
          simp only [if_neg hM, if_neg hMm, hbeq, if_false, Prod.mk.injEq, true_and]
          simp
      · have hgt : m < effectiveDistance shoot x :=
          Nat.lt_of_le_of_ne (Nat.le_of_not_lt hlt) (fun hc => hd hc.symm)
        have hmin : Nat.min m (effectiveDistance shoot x) = m := min_eq_left hgt.le
        rw [show minimalDistanceStep shoot (m, cs) x = (m, cs) from by
            simp [minimalDistanceStep, hd, hlt]]
        simp only [hmin]
        rw [ih m cs]
        have hMle : rest.foldl (fun a s => Nat.min a (effectiveDistance shoot s)) m ≤ m :=
          foldl_min_le shoot rest _
        have hbeq : (effectiveDistance shoot x ==
            rest.foldl (fun a s => Nat.min a (effectiveDistance shoot s)) m) = false := by
          simp only [beq_eq_false_iff_ne, ne_eq]
          omega
        simp [hbeq]

theorem minimalDistance_char (shoot : Shoot) (seeds : List Seed) :
    determineCandidatesWithMinimalDistanceStrategy seeds shoot =
      seeds.filter (fun s => effectiveDistance shoot s == minimalEffectiveDistance shoot seeds) := by
  unfold determineCandidatesWithMinimalDistanceStrategy minimalEffectiveDistance
  rw [minimalDistanceAux shoot seeds 1000 []]
  simp [ite_self]

theorem emptyToError_ok {l out : List Seed} {msg : String} (h : emptyToError l msg = .ok out) :
    out = l ∧ l ≠ [] := by
  unfold emptyToError at h
  split at h
  · cases h
  · next hne =>
    cases h
    refine ⟨rfl, ?_⟩
    intro hnil
    exact hne (by simp [hnil])

theorem applyStrategy_testing {shoot : Shoot} (seeds : List Seed) (strategy : String)
    (hp : shoot.purpose = some shootPurposeTesting) :
    applyStrategy shoot seeds strategy =
      some (emptyToError (determineCandidatesOfSameProvider seeds shoot) (noMatchingSeedMsg shoot strategy)) := by
  unfold applyStrategy
  exact if_pos (by rw [hp]; exact beq_self_eq_true _)

theorem applyStrategy_sameRegion {shoot : Shoot} (seeds : List Seed) {strategy : String}
    (hp : shoot.purpose ≠ some shootPurposeTesting) (hs : strategy = sameRegionStrategy) :
    applyStrategy shoot seeds strategy =
      some (emptyToError (determineCandidatesWithSameRegionStrategy seeds shoot) (noMatchingSeedMsg shoot strategy)) := by
  unfold applyStrategy
  rw [if_neg (by simp [hp]), if_pos (by rw [hs]; exact beq_self_eq_true _)]

theorem applyStrategy_minimalDistance {shoot : Shoot} (seeds : List Seed) {strategy : String}
    (hp : shoot.purpose ≠ some shootPurposeTesting) (hs : strategy = minimalDistanceStrategy) :
    applyStrategy shoot seeds strategy =
      some (emptyToError (determineCandidatesWithMinimalDistanceStrategy seeds shoot) (noMatchingSeedMsg shoot strategy)) := by
  unfold applyStrategy
  rw [if_neg (by simp [hp]), if_neg (by simp [hs, sameRegionStrategy, minimalDistanceStrategy]),
    if_pos (by rw [hs]; exact beq_self_eq_true _)]

/-- Membership in the output of the strategy stage implies membership in its
input and the per-seed predicate of the branch that ran. -/
theorem applyStrategy_mem {shoot : Shoot} {seeds out : List Seed} {strategy : String}
    (h : applyStrategy shoot seeds strategy = some (.ok out)) :
    out ≠ [] ∧ ∀ x ∈ out, x ∈ seeds ∧ strategyKeeps shoot strategy seeds x := by
  by_cases hp : shoot.purpose = some shootPurposeTesting
  · rw [applyStrategy_testing seeds strategy hp] at h
    injection h with h
    obtain ⟨ho, hne⟩ := emptyToError_ok h
    subst ho
    refine ⟨by simpa [determineCandidatesOfSameProvider] using hne, ?_⟩
    intro x hx
    rcases List.mem_filter.mp hx with ⟨hmem, hpt⟩
    exact ⟨hmem, by simp only [strategyKeeps, if_pos hp]; exact beq_iff_eq.mp hpt⟩
  · by_cases hs : strategy = sameRegionStrategy
    · rw [applyStrategy_sameRegion seeds hp hs] at h
      injection h with h
      obtain ⟨ho, hne⟩ := emptyToError_ok h
      subst ho
      refine ⟨by simpa [determineCandidatesWithSameRegionStrategy] using hne, ?_⟩
      intro x hx
      rcases List.mem_filter.mp hx with ⟨hmem, hpt⟩
      simp only [Bool.and_eq_true] at hpt
      rcases hpt with ⟨hp1, hp2⟩
      exact ⟨hmem, by
        simp only [strategyKeeps, if_neg hp, if_pos hs]
        exact ⟨beq_iff_eq.mp hp1, beq_iff_eq.mp hp2⟩⟩
    · by_cases hm : strategy = minimalDistanceStrategy
      · rw [applyStrategy_minimalDistance seeds hp hm] at h
        injection h with h
        obtain ⟨ho, hne⟩ := emptyToError_ok h
        subst ho
        rw [minimalDistance_char] at hne ⊢
        refine ⟨hne, ?_⟩
        intro x hx
        rcases List.mem_filter.mp hx with ⟨hmem, hpt⟩
        exact ⟨hmem, by
          simp only [strategyKeeps, if_neg hp, if_neg hs, if_pos hm]
          exact beq_iff_eq.mp hpt⟩
      · exfalso
        unfold applyStrategy at h
        rw [if_neg (by simp [hp]), if_neg (by simp [hs]), if_neg (by simp [hm])] at h
        match hpv : shoot.purpose with
        | none => rw [hpv] at h; cases h
        | some p => rw [hpv] at h; cases h

/-- C5: in stage F, a testing shoot keeps exactly the provider-matching
seeds with the region ignored, and a non-testing shoot under the SameRegion
strategy keeps exactly the seeds matching both provider and region. -/
theorem testing_and_same_region_candidates_exact
    (shoot : Shoot) (seeds : List Seed) (strategy : String) (out : List Seed) :
    (shoot.purpose = some shootPurposeTesting →
      applyStrategy shoot seeds strategy = some (.ok out) →
      out = seeds.filter (fun s => s.providerType == shoot.providerType)) ∧
    (shoot.purpose ≠ some shootPurposeTesting → strategy = sameRegionStrategy →
      applyStrategy shoot seeds strategy = some (.ok out) →
      out = seeds.filter (fun s => s.providerType == shoot.providerType && s.providerRegion == shoot.region)) := by
  constructor
  · intro hp h
    rw [applyStrategy_testing seeds strategy hp] at h
    injection h with h
    obtain ⟨ho, -⟩ := emptyToError_ok h
    exact ho
  · intro hp hs h
    rw [applyStrategy_sameRegion seeds hp hs] at h
    injection h with h
    obtain ⟨ho, -⟩ := emptyToError_ok h
    exact ho

/-- Witness for C5: the testing branch keeps the gcp seed despite the region
mismatch, and the SameRegion branch keeps only the matching aws seed. -/
theorem testing_and_same_region_candidates_exact_witness :
    ({ wShoot with purpose := some "testing" }.purpose = some shootPurposeTesting ∧
      [wSeed] = [wSeed].filter (fun s => s.providerType == { wShoot with purpose := some "testing" }.providerType)) ∧
    (wShoot.purpose ≠ some shootPurposeTesting ∧
      [wSeed] = [wSeed].filter (fun s => s.providerType == wShoot.providerType && s.providerRegion == wShoot.region)) :=
  ⟨⟨rfl, (testing_and_same_region_candidates_exact { wShoot with purpose := some "testing" } [wSeed] sameRegionStrategy [wSeed]).1 rfl rfl⟩,
   ⟨by decide, (testing_and_same_region_candidates_exact wShoot [wSeed] sameRegionStrategy [wSeed]).2 (by decide) rfl rfl⟩⟩

/-- C6: with a non-testing shoot under the MinimalDistance strategy the
surviving candidates are exactly the seeds whose effective distance (the
region distance, plus 2 when the provider types differ) equals the minimum
effective distance folded from the sentinel 1000 over the input seeds. -/
theorem minimal_distance_candidates_exact
    (shoot : Shoot) (seeds : List Seed) (strategy : String) (out : List Seed)
    (hp : shoot.purpose ≠ some shootPurposeTesting)
    (hs : strategy = minimalDistanceStrategy)
    (h : applyStrategy shoot seeds strategy = some (.ok out)) :
    out = seeds.filter (fun s => effectiveDistance shoot s == minimalEffectiveDistance shoot seeds) := by
  rw [applyStrategy_minimalDistance seeds hp hs] at h
  injection h with h
  obtain ⟨ho, -⟩ := emptyToError_ok h
  rw [ho, minimalDistance_char]

/-- Witness for C6: among an aws seed at distance 0 and a gcp seed at
distance 2 the minimal-distance branch keeps exactly the aws seed. -/
theorem minimal_distance_candidates_exact_witness :
    wShoot.purpose ≠ some shootPurposeTesting ∧
    [wSeed] = [wSeed, mSeed2].filter
      (fun s => effectiveDistance wShoot s == minimalEffectiveDistance wShoot [wSeed, mSeed2]) :=
  ⟨by decide,
   minimal_distance_candidates_exact wShoot [wSeed, mSeed2] minimalDistanceStrategy [wSeed]
     (by decide) rfl rfl⟩

/-- C7: in the eligibility stage, a seed that passes the network and taint
checks is rejected exactly when it publishes a shoot cap at or below its
current usage; a seed without a cap is never rejected for capacity. -/
theorem capacity_rejection_iff
    (shoot : Shoot) (shoots : List Shoot) (seeds : List Seed) (iter : ErrIter)
    (out : List Seed) (seed : Seed)
    (hmem : seed ∈ seeds)
    (hnet : networksAreDisjointed seed shoot = true)
    (htol : taintsAreTolerated seed.taints shoot.tolerations = true)
    (h : filterCandidates shoot shoots seeds iter = .ok out) :
    (∀ k : Int, seed.allocatableShoots = some k →
      (seed ∈ out ↔ (seedUsage shoots seed.name : Int) < k)) ∧
    (seed.allocatableShoots = none → seed ∈ out) := by
  have hout := filterCandidates_ok h
  subst hout
  constructor
  · intro k hk
    constructor
    · intro hin
      rcases List.mem_filter.mp hin with ⟨-, helig⟩
      rcases seedEligibilityError_none_iff.mp (Option.isNone_iff_eq_none.mp helig)
        with ⟨-, -, hcap⟩
      simpa [capacityOk, hk] using hcap
    · intro hlt
      have hcap : capacityOk (seedUsage shoots seed.name) seed = true := by
        simp [capacityOk, hk, hlt]
      have hnone : seedEligibilityError shoot (seedUsage shoots seed.name) seed = none :=
        seedEligibilityError_none_iff.mpr ⟨hnet, htol, hcap⟩
      exact List.mem_filter.mpr ⟨hmem, by simp [hnone]⟩
  · intro hk
    have hcap : capacityOk (seedUsage shoots seed.name) seed = true := by
      simp [capacityOk, hk]
    have hnone : seedEligibilityError shoot (seedUsage shoots seed.name) seed = none :=
      seedEligibilityError_none_iff.mpr ⟨hnet, htol, hcap⟩
    exact List.mem_filter.mpr ⟨hmem, by simp [hnone]⟩

/-- Witness for C7: the capped seed with usage 0 below its cap of 1 passes
the eligibility stage. -/
theorem capacity_rejection_iff_witness :
    (kSeed ∈ [kSeed] ∧ networksAreDisjointed kSeed wShoot = true ∧
      taintsAreTolerated kSeed.taints wShoot.tolerations = true) ∧
    ((∀ k : Int, kSeed.allocatableShoots = some k →
        (kSeed ∈ [kSeed] ↔ (seedUsage [] kSeed.name : Int) < k)) ∧
      (kSeed.allocatableShoots = none → kSeed ∈ [kSeed])) :=
  ⟨⟨by decide, by decide, by decide⟩,
   capacity_rejection_iff wShoot [] [kSeed] (fun l => l) [kSeed] kSeed
     (by decide) (by decide) (by decide) rfl⟩

/-- C8 (code-bug evidence): with an unknown strategy the default branch of
applyStrategy dereferences the optional shoot purpose.  For a shoot without
a purpose the stage panics (modelled as none) instead of returning the hard
error the spec requires; with a purpose present the hard error is returned. -/
theorem unknown_strategy_panics_without_purpose :
    applyStrategy wShoot [wSeed] "Balanced" = none ∧
    (∃ e, applyStrategy { wShoot with purpose := some "evaluation" } [wSeed] "Balanced" = some (.error e)) :=
  ⟨rfl, ⟨_, rfl⟩⟩

/-- C10: a shoot whose seedName field is present but equal to the empty
string is classified as already scheduled: reconcile returns done with no
error, no event and no write. -/
theorem present_empty_seed_name_short_circuits
    (snap : Snapshot) (strategy : String) (iter : ErrIter) (shoot : Shoot)
    (h : snap.shoot = some shoot) (hs : shoot.seedName = some "") :
    reconcile snap strategy iter = some { err := none, events := [], write := none } := by
  unfold reconcile
  rw [h]
  simp [hs]

/-- Witness for C10. -/
theorem present_empty_seed_name_short_circuits_witness :
    reconcile eSnap sameRegionStrategy (fun l => l) = some { err := none, events := [], write := none } :=
  present_empty_seed_name_short_circuits eSnap sameRegionStrategy (fun l => l) eShoot rfl rfl

theorem find?_prefix_false {α : Type} (p : α → Bool) {pre : List α} (rest : List α)
    (h : ∀ s ∈ pre, p s = false) :
    (pre ++ rest).find? p = rest.find? p := by
  induction pre with
  | nil => rfl
  | cons x xs ih =>
    have hx := h x (List.mem_cons_self x xs)
    simp only [List.cons_append, List.find?, hx]
    exact ih (fun s hs => h s (List.mem_cons_of_mem x hs))

theorem pickLeastAux_spec (usage : String → Nat) :
    ∀ (todo : List Seed) (b0 : Seed),
      ∃ b : Seed,
        pickLeastAux usage (some (b0, usage b0.name)) todo = some (b, usage b.name) ∧
        ((b = b0 ∧ ∀ s ∈ todo, usage b0.name ≤ usage s.name) ∨
         (∃ pre post, todo = pre ++ b :: post ∧ usage b.name < usage b0.name ∧
            (∀ s ∈ pre, usage b.name < usage s.name) ∧
            (∀ s ∈ post, usage b.name ≤ usage s.name))) := by
  intro todo
  induction todo with
  | nil =>
    intro b0
    exact ⟨b0, rfl, Or.inl ⟨rfl, by simp⟩⟩
  | cons x rest ih =>
    intro b0
    by_cases hlt : usage x.name < usage b0.name
    · obtain ⟨b, hrun, hdisj⟩ := ih x
      refine ⟨b, by simpa [pickLeastAux, hlt] using hrun, ?_⟩
      rcases hdisj with ⟨hb, hall⟩ | ⟨pre, post, heq, hlt2, hpre, hpost⟩
      · subst hb
        exact Or.inr ⟨[], rest, by simp, hlt, by simp, hall⟩
      · refine Or.inr ⟨x :: pre, post, by rw [heq]; rfl, lt_trans hlt2 hlt, ?_, hpost⟩
        intro s hs
        rcases List.mem_cons.mp hs with hsx | hsp
        · rw [hsx]; exact hlt2
        · exact hpre s hsp
    · obtain ⟨b, hrun, hdisj⟩ := ih b0
      refine ⟨b, by simpa [pickLeastAux, hlt] using hrun, ?_⟩
      rcases hdisj with ⟨hb, hall⟩ | ⟨pre, post, heq, hlt2, hpre, hpost⟩
      · refine Or.inl ⟨hb, ?_⟩
        intro s hs
        rcases List.mem_cons.mp hs with hsx | hsp
        · rw [hsx]; exact Nat.le_of_not_lt hlt
        · exact hall s hsp
      · refine Or.inr ⟨x :: pre, post, by rw [heq]; rfl, hlt2, ?_, hpost⟩
        intro s hs
        rcases List.mem_cons.mp hs with hsx | hsp
        · rw [hsx]; exact lt_of_lt_of_le hlt2 (Nat.le_of_not_lt hlt)
        · exact hpre s hsp

theorem getSeedWithLeastShootsDeployed_cons (x : Seed) (rest : List Seed) (shootList : List Shoot) :
    ∃ b : Seed,
      getSeedWithLeastShootsDeployed (x :: rest) shootList = b ∧
      pickLeastAux (seedUsage shootList) (some (x, seedUsage shootList x.name)) rest =
        some (b, seedUsage shootList b.name) := by
  obtain ⟨b, hrun, -⟩ := pickLeastAux_spec (seedUsage shootList) rest x
  refine ⟨b, ?_, hrun⟩
  unfold getSeedWithLeastShootsDeployed
  have hstep : pickLeastAux (seedUsage shootList) none (x :: rest) =
      pickLeastAux (seedUsage shootList) (some (x, seedUsage shootList x.name)) rest := rfl
  rw [hstep, hrun]

theorem getSeedWithLeastShootsDeployed_mem {seedList : List Seed} (shootList : List Shoot)
    (h : seedList ≠ []) :
    getSeedWithLeastShootsDeployed seedList shootList ∈ seedList := by
  match seedList, h with
  | x :: rest, _ =>
    obtain ⟨b, hrun, hdisj⟩ := pickLeastAux_spec (seedUsage shootList) rest x
    have hg : getSeedWithLeastShootsDeployed (x :: rest) shootList = b := by
      unfold getSeedWithLeastShootsDeployed
      have hstep : pickLeastAux (seedUsage shootList) none (x :: rest) =
          pickLeastAux (seedUsage shootList) (some (x, seedUsage shootList x.name)) rest := rfl
      rw [hstep, hrun]
    rw [hg]
    rcases hdisj with ⟨hb, -⟩ | ⟨pre, post, heq, -, -, -⟩
    · rw [hb]; exact List.mem_cons_self _ _
    · exact List.mem_cons_of_mem x (heq ▸ List.mem_append_right pre (List.mem_cons_self b post))

/-- C3: on a non-empty candidate list the tie-break returns a member whose
bound-shoot count is minimal, and it is the first such member in input
order (its first equal-usage occurrence is itself). -/
theorem tie_break_least_loaded_first (seedList : List Seed) (shootList : List Shoot)
    (h : seedList ≠ []) :
    getSeedWithLeastShootsDeployed seedList shootList ∈ seedList ∧
    (∀ s ∈ seedList,
      seedUsage shootList (getSeedWithLeastShootsDeployed seedList shootList).name ≤
        seedUsage shootList s.name) ∧
    seedList.find?
        (fun s => seedUsage shootList s.name ==
          seedUsage shootList (getSeedWithLeastShootsDeployed seedList shootList).name) =
      some (getSeedWithLeastShootsDeployed seedList shootList) := by
  match seedList, h with
  | x :: rest, _ =>
    obtain ⟨b, hrun, hdisj⟩ := pickLeastAux_spec (seedUsage shootList) rest x
    have hg : getSeedWithLeastShootsDeployed (x :: rest) shootList = b := by
      unfold getSeedWithLeastShootsDeployed
      have hstep : pickLeastAux (seedUsage shootList) none (x :: rest) =
          pickLeastAux (seedUsage shootList) (some (x, seedUsage shootList x.name)) rest := rfl
      rw [hstep, hrun]
    rw [hg]
    rcases hdisj with ⟨hb, hall⟩ | ⟨pre, post, heq, hlt2, hpre, hpost⟩
    · subst hb
      refine ⟨List.mem_cons_self _ _, ?_, ?_⟩
      · intro s hs
        rcases List.mem_cons.mp hs with hsx | hsp
        · rw [hsx]
        · exact hall s hsp
      · simp [List.find?]
    · have hmemb : b ∈ x :: rest :=
        List.mem_cons_of_mem x (heq ▸ List.mem_append_right pre (List.mem_cons_self b post))
      refine ⟨hmemb, ?_, ?_⟩
      · intro s hs
        rcases List.mem_cons.mp hs with hsx | hsp
        · rw [hsx]; exact hlt2.le
        · rw [heq] at hsp
          rcases List.mem_append.mp hsp with hsl | hsr
          · exact (hpre s hsl).le
          · rcases List.mem_cons.mp hsr with hsb | hsp2
            · rw [hsb]
            · exact hpost s hsp2
      · have hlist : x :: rest = (x :: pre) ++ (b :: post) := by rw [heq]; rfl
        have hfalse : ∀ s ∈ x :: pre,
            (seedUsage shootList s.name == seedUsage shootList b.name) = false := by
          intro s hs
          simp only [beq_eq_false_iff_ne, ne_eq]
          rcases List.mem_cons.mp hs with hsx | hsp
          · rw [hsx]
            exact fun hc => Nat.lt_irrefl _ (hc ▸ hlt2)
          · exact fun hc => Nat.lt_irrefl _ (hc ▸ hpre s hsp)
        rw [hlist, find?_prefix_false _ _ hfalse]
        simp [List.find?]

/-- Witness for C3: between seed1 (hosting two shoots) and m2 (hosting one)
the tie-break picks the less loaded m2, first among the minima. -/
theorem tie_break_least_loaded_first_witness :
    getSeedWithLeastShootsDeployed [wSeed, mSeed2] bShoots ∈ [wSeed, mSeed2] ∧
    (∀ s ∈ [wSeed, mSeed2],
      seedUsage bShoots (getSeedWithLeastShootsDeployed [wSeed, mSeed2] bShoots).name ≤
        seedUsage bShoots s.name) ∧
    [wSeed, mSeed2].find?
        (fun s => seedUsage bShoots s.name ==
          seedUsage bShoots (getSeedWithLeastShootsDeployed [wSeed, mSeed2] bShoots).name) =
      some (getSeedWithLeastShootsDeployed [wSeed, mSeed2] bShoots) :=
  tie_break_least_loaded_first [wSeed, mSeed2] bShoots (by decide)

theorem determineFilteredSeeds_mem {shoot : Shoot} {seeds : List Seed} {shoots : List Shoot}
    {cp : CloudProfile} {iter : ErrIter} {out : List Seed}
    (h : determineFilteredSeeds shoot seeds shoots cp iter = .ok out) :
    ∀ x ∈ out, x ∈ seeds ∧ isUsableSeed x = true ∧
      seedKeptBySelector cp.seedSelector x = true ∧
      seedKeptBySelector shoot.seedSelector x = true ∧
      matchProvider x.providerType shoot.providerType (enabledProviderTypes cp) = true ∧
      (isMultiZonalShootControlPlane shoot = true → 3 ≤ x.zones.length) ∧
      networksAreDisjointed x shoot = true ∧
      taintsAreTolerated x.taints shoot.tolerations = true ∧
      capacityOk (seedUsage shoots x.name) x = true := by
  unfold determineFilteredSeeds at h
  cases h1 : filterUsableSeeds seeds with
  | error e => simp only [h1] at h; exact Except.noConfusion h
  | ok l1 =>
    simp only [h1] at h
    cases h2 : filterSeedsMatchingLabelSelector l1 cp.seedSelector "CloudProfile" with
    | error e => simp only [h2] at h; exact Except.noConfusion h
    | ok l2 =>
      simp only [h2] at h
      cases h3 : filterSeedsMatchingLabelSelector l2 shoot.seedSelector "Shoot" with
      | error e => simp only [h3] at h; exact Except.noConfusion h
      | ok l3 =>
        simp only [h3] at h
        cases h4 : filterSeedsMatchingProviders cp shoot l3 with
        | error e => simp only [h4] at h; exact Except.noConfusion h
        | ok l4 =>
          simp only [h4] at h
          cases h5 : filterSeedsForZonalShootControlPlanes l4 shoot with
          | error e => simp only [h5] at h; exact Except.noConfusion h
          | ok l5 =>
            simp only [h5] at h
            intro x hx
            obtain ⟨hx5, hnet, htol, hcap⟩ := filterCandidates_mem h x hx
            obtain ⟨hx4, hzone⟩ := filterSeedsForZonalShootControlPlanes_mem h5 x hx5
            obtain ⟨hx3, hprov⟩ := filterSeedsMatchingProviders_mem h4 x hx4
            obtain ⟨hx2, hsel2⟩ := filterSeedsMatchingLabelSelector_mem h3 x hx3
            obtain ⟨hx1, hsel1⟩ := filterSeedsMatchingLabelSelector_mem h2 x hx2
            have hxs : x ∈ seeds.filter isUsableSeed := (filterUsableSeeds_ok h1) ▸ hx1
            rcases List.mem_filter.mp hxs with ⟨hmem, husable⟩
            exact ⟨hmem, husable, hsel1, hsel2, hprov, hzone, hnet, htol, hcap⟩

theorem determineFilteredSeeds_ok_iter {shoot : Shoot} {seeds : List Seed} {shoots : List Shoot}
    {cp : CloudProfile} {iter1 : ErrIter} {out : List Seed} (iter2 : ErrIter)
    (h : determineFilteredSeeds shoot seeds shoots cp iter1 = .ok out) :
    determineFilteredSeeds shoot seeds shoots cp iter2 = .ok out := by
  unfold determineFilteredSeeds at h ⊢
  cases h1 : filterUsableSeeds seeds with
  | error e => simp only [h1] at h; exact Except.noConfusion h
  | ok l1 =>
    simp only [h1] at h ⊢
    cases h2 : filterSeedsMatchingLabelSelector l1 cp.seedSelector "CloudProfile" with
    | error e => simp only [h2] at h; exact Except.noConfusion h
    | ok l2 =>
      simp only [h2] at h ⊢
      cases h3 : filterSeedsMatchingLabelSelector l2 shoot.seedSelector "Shoot" with
      | error e => simp only [h3] at h; exact Except.noConfusion h
      | ok l3 =>
        simp only [h3] at h ⊢
        cases h4 : filterSeedsMatchingProviders cp shoot l3 with
        | error e => simp only [h4] at h; exact Except.noConfusion h
        | ok l4 =>
          simp only [h4] at h ⊢
          cases h5 : filterSeedsForZonalShootControlPlanes l4 shoot with
          | error e => simp only [h5] at h; exact Except.noConfusion h
          | ok l5 =>
            simp only [h5] at h ⊢
            exact filterCandidates_ok_iter h

/-- C9 (amended): the pipeline is deterministic up to the iteration order
of the per-seed rejection map: on the success path the chosen seed does not
depend on that order at all. -/
theorem pipeline_deterministic_up_to_map_order
    (shoot : Shoot) (strategy : String) (seeds : List Seed) (shoots : List Shoot)
    (cloudProfile : Option CloudProfile) (iter1 iter2 : ErrIter) (seed : Seed)
    (h : determineSeed shoot strategy seeds shoots cloudProfile iter1 = some (.ok seed)) :
    determineSeed shoot strategy seeds shoots cloudProfile iter2 = some (.ok seed) := by
  unfold determineSeed at h ⊢
  cases cloudProfile with
  | none => simp at h
  | some cp =>
    cases hf : determineFilteredSeeds shoot seeds shoots cp iter1 with
    | error e =>
      simp only [hf] at h
      simp at h
    | ok filtered =>
      simp only [hf] at h
      have hgoal := determineFilteredSeeds_ok_iter iter2 hf
      simp only [hgoal]
      exact h

/-- Witness for the amended C9: on the happy-path snapshot the pipeline
returns the same seed under the reversed map order as under the identity
order. -/
theorem pipeline_deterministic_up_to_map_order_witness :
    determineSeed wShoot sameRegionStrategy [wSeed] [] (some wProfile) (fun l => l.reverse) =
      some (.ok wSeed) :=
  pipeline_deterministic_up_to_map_order wShoot sameRegionStrategy [wSeed] [] (some wProfile)
    (fun l => l) (fun l => l.reverse) wSeed rfl

/-- Counterexample to C9 as stated: on identical inputs, two legitimate
iteration orders of the Go rejection map (the reversal is a permutation of
the entry list) produce different error values on the failure path. -/
theorem pipeline_error_depends_on_map_order :
    determineSeed wShoot sameRegionStrategy [tSeed1, tSeed2] [] (some wProfile) (fun l => l) ≠
      determineSeed wShoot sameRegionStrategy [tSeed1, tSeed2] [] (some wProfile) (fun l => l.reverse) ∧
    c9errs.reverse.Perm c9errs := by
  constructor
  · have h1 : determineSeed wShoot sameRegionStrategy [tSeed1, tSeed2] [] (some wProfile)
        (fun l => l) = some (.error c9msgA) := rfl
    have h2 : determineSeed wShoot sameRegionStrategy [tSeed1, tSeed2] [] (some wProfile)
        (fun l => l.reverse) = some (.error c9msgB) := rfl
    rw [h1, h2]
    intro hc
    have hmsg : c9msgA = c9msgB := by
      injection hc with hc1
      injection hc1
    exact absurd hmsg (by decide)
  · decide

/-- C1: every reconcile that emits SchedulingSuccessful writes the name of a
seed of the pre-state snapshot that satisfies every stage predicate:
usability, both label selectors, provider match, zonal topology, network
disjointness, taint toleration, capacity, and the branch of the strategy
stage relative to the stage-F input. -/
theorem successful_scheduling_satisfies_all_stages
    (snap : Snapshot) (strategy : String) (iter : ErrIter) (res : ReconcileResult) (msg : String)
    (hres : reconcile snap strategy iter = some res)
    (hev : Event.schedulingSuccessful msg ∈ res.events) :
    ∃ shoot cp filtered seed,
      snap.shoot = some shoot ∧
      snap.cloudProfile = some cp ∧
      res.write = some seed.name ∧
      seed ∈ snap.seeds ∧
      isUsableSeed seed = true ∧
      seedKeptBySelector cp.seedSelector seed = true ∧
      seedKeptBySelector shoot.seedSelector seed = true ∧
      matchProvider seed.providerType shoot.providerType (enabledProviderTypes cp) = true ∧
      (isMultiZonalShootControlPlane shoot = true → 3 ≤ seed.zones.length) ∧
      networksAreDisjointed seed shoot = true ∧
      taintsAreTolerated seed.taints shoot.tolerations = true ∧
      capacityOk (seedUsage snap.shoots seed.name) seed = true ∧
      determineFilteredSeeds shoot snap.seeds snap.shoots cp iter = .ok filtered ∧
      strategyKeeps shoot strategy filtered seed := by
  unfold reconcile at hres
  cases hsh : snap.shoot with
  | none =>
    simp only [hsh] at hres
    cases hres
    simp at hev
  | some shoot =>
    simp only [hsh] at hres
    by_cases hbound : shoot.seedName.isSome
    · rw [if_pos hbound] at hres
      cases hres
      simp at hev
    · rw [if_neg hbound] at hres
      by_cases hdel : shoot.deletionTimestamp.isSome
      · rw [if_pos hdel] at hres
        cases hres
        simp at hev
      · rw [if_neg hdel] at hres
        cases hd : determineSeed shoot strategy snap.seeds snap.shoots snap.cloudProfile iter with
        | none => simp only [hd] at hres; exact Option.noConfusion hres
        | some r =>
          cases r with
          | error e =>
            simp only [hd] at hres
            cases hres
            simp at hev
          | ok seed =>
            simp only [hd] at hres
            cases hres
            unfold determineSeed at hd
            cases hcp : snap.cloudProfile with
            | none => simp only [hcp] at hd; simp at hd
            | some cp =>
              simp only [hcp] at hd
              cases hf : determineFilteredSeeds shoot snap.seeds snap.shoots cp iter with
              | error e => simp only [hf] at hd; simp at hd
              | ok filtered =>
                simp only [hf] at hd
                cases ha : applyStrategy shoot filtered strategy with
                | none => simp only [ha] at hd; exact Option.noConfusion hd
                | some rr =>
                  cases rr with
                  | error e => simp only [ha] at hd; simp at hd
                  | ok candidates =>
                    simp only [ha] at hd
                    have hseed : getSeedWithLeastShootsDeployed candidates snap.shoots = seed := by
                      injection hd with hd1
                      injection hd1
                    obtain ⟨hne, hkeep⟩ := applyStrategy_mem ha
                    have hmemc : seed ∈ candidates :=
                      hseed ▸ getSeedWithLeastShootsDeployed_mem snap.shoots hne
                    obtain ⟨hmf, hkeeps⟩ := hkeep seed hmemc
                    obtain ⟨hmem, husable, hsel1, hsel2, hprov, hzone, hnet, htol, hcap⟩ :=
                      determineFilteredSeeds_mem hf seed hmf
                    exact ⟨shoot, cp, filtered, seed, rfl, rfl, rfl, hmem, husable, hsel1, hsel2,
                      hprov, hzone, hnet, htol, hcap, hf, hkeeps⟩

/-- Witness for C1: the happy-path reconcile emits SchedulingSuccessful and
the written seed satisfies every stage predicate. -/
theorem successful_scheduling_satisfies_all_stages_witness :
    ∃ shoot cp filtered seed,
      wSnap.shoot = some shoot ∧
      wSnap.cloudProfile = some cp ∧
      wRes.write = some seed.name ∧
      seed ∈ wSnap.seeds ∧
      isUsableSeed seed = true ∧
      seedKeptBySelector cp.seedSelector seed = true ∧
      seedKeptBySelector shoot.seedSelector seed = true ∧
      matchProvider seed.providerType shoot.providerType (enabledProviderTypes cp) = true ∧
      (isMultiZonalShootControlPlane shoot = true → 3 ≤ seed.zones.length) ∧
      networksAreDisjointed seed shoot = true ∧
      taintsAreTolerated seed.taints shoot.tolerations = true ∧
      capacityOk (seedUsage wSnap.shoots seed.name) seed = true ∧
      determineFilteredSeeds shoot wSnap.seeds wSnap.shoots cp (fun l => l) = .ok filtered ∧
      strategyKeeps shoot sameRegionStrategy filtered seed :=
  successful_scheduling_satisfies_all_stages wSnap sameRegionStrategy (fun l => l) wRes
    "Scheduled to seed seed1" rfl (List.mem_singleton.mpr rfl)

/-- C2: a reconcile never writes the name of a seed that was deleting,
hidden, or lacking the required readiness conditions in the snapshot. -/
theorem never_binds_unusable_seed
    (snap : Snapshot) (strategy : String) (iter : ErrIter) (res : ReconcileResult) (n : String)
    (hres : reconcile snap strategy iter = some res)
    (hw : res.write = some n) :
    ∃ seed ∈ snap.seeds, seed.name = n ∧
      seed.deletionTimestamp = none ∧
      seed.visible = true ∧
      conditionTrue seed.conditions seedBootstrapped = true ∧
      conditionTrue seed.conditions seedGardenletReady = true ∧
      (seed.backup = true → conditionTrue seed.conditions seedBackupBucketsReady = true) := by
  unfold reconcile at hres
  cases hsh : snap.shoot with
  | none =>
    simp only [hsh] at hres
    cases hres
    cases hw
  | some shoot =>
    simp only [hsh] at hres
    by_cases hbound : shoot.seedName.isSome
    · rw [if_pos hbound] at hres
      cases hres
      cases hw
    · rw [if_neg hbound] at hres
      by_cases hdel : shoot.deletionTimestamp.isSome
      · rw [if_pos hdel] at hres
        cases hres
        cases hw
      · rw [if_neg hdel] at hres
        cases hd : determineSeed shoot strategy snap.seeds snap.shoots snap.cloudProfile iter with
        | none => simp only [hd] at hres; exact Option.noConfusion hres
        | some r =>
          cases r with
          | error e =>
            simp only [hd] at hres
            cases hres
            cases hw
          | ok seed =>
            simp only [hd] at hres
            cases hres
            have hn : seed.name = n := by injection hw
            unfold determineSeed at hd
            cases hcp : snap.cloudProfile with
            | none => simp only [hcp] at hd; simp at hd
            | some cp =>
              simp only [hcp] at hd
              cases hf : determineFilteredSeeds shoot snap.seeds snap.shoots cp iter with
              | error e => simp only [hf] at hd; simp at hd
              | ok filtered =>
                simp only [hf] at hd
                cases ha : applyStrategy shoot filtered strategy with
                | none => simp only [ha] at hd; exact Option.noConfusion hd
                | some rr =>
                  cases rr with
                  | error e => simp only [ha] at hd; simp at hd
                  | ok candidates =>
                    simp only [ha] at hd
                    have hseed : getSeedWithLeastShootsDeployed candidates snap.shoots = seed := by
                      injection hd with hd1
                      injection hd1
                    obtain ⟨hne, hkeep⟩ := applyStrategy_mem ha
                    have hmemc : seed ∈ candidates :=
                      hseed ▸ getSeedWithLeastShootsDeployed_mem snap.shoots hne
                    obtain ⟨hmf, -⟩ := hkeep seed hmemc
                    obtain ⟨hmem, husable, -, -, -, -, -, -, -⟩ :=
                      determineFilteredSeeds_mem hf seed hmf
                    simp only [isUsableSeed, Bool.and_eq_true] at husable
                    rcases husable with ⟨⟨hdt, hvis⟩, hready⟩
                    simp only [verifySeedReadiness, Bool.and_eq_true] at hready
                    rcases hready with ⟨⟨hb, hg⟩, hbb⟩
                    refine ⟨seed, hmem, hn, Option.isNone_iff_eq_none.mp hdt, hvis, hb, hg, ?_⟩
                    intro hbk
                    simp only [Bool.or_eq_true] at hbb
                    rcases hbb with hbb | hbb
                    · rw [hbk] at hbb
                      cases hbb
                    · exact hbb

/-- Witness for C2: the seed written on the happy path is not deleting,
visible and ready. -/
theorem never_binds_unusable_seed_witness :
    ∃ seed ∈ wSnap.seeds, seed.name = "seed1" ∧
      seed.deletionTimestamp = none ∧
      seed.visible = true ∧
      conditionTrue seed.conditions seedBootstrapped = true ∧
      conditionTrue seed.conditions seedGardenletReady = true ∧
      (seed.backup = true → conditionTrue seed.conditions seedBackupBucketsReady = true) :=
  never_binds_unusable_seed wSnap sameRegionStrategy (fun l => l) wRes "seed1" rfl rfl

/-- C4: a reconcile is done with no error, no event and no write exactly
when the shoot was missing, already carried a seedName, or was marked for
deletion; and reconciling the shoot right after its binding was written is
such a no-op. -/
theorem done_quietly_iff_prebound_deleting_or_missing
    (snap : Snapshot) (strategy : String) (iter : ErrIter) (res : ReconcileResult)
    (hres : reconcile snap strategy iter = some res) :
    ((res.err = none ∧ res.events = [] ∧ res.write = none) ↔
      (snap.shoot = none ∨
        ∃ shoot, snap.shoot = some shoot ∧
          (shoot.seedName ≠ none ∨ shoot.deletionTimestamp ≠ none))) ∧
    (∀ shoot n, snap.shoot = some shoot → res.write = some n →
      reconcile { snap with shoot := some { shoot with seedName := some n } } strategy iter =
        some noopRes) := by
  constructor
  · unfold reconcile at hres
    cases hsh : snap.shoot with
    | none =>
      simp only [hsh] at hres
      cases hres
      simp
    | some shoot =>
      simp only [hsh] at hres
      by_cases hbound : shoot.seedName.isSome
      · rw [if_pos hbound] at hres
        cases hres
        constructor
        · intro _
          exact Or.inr ⟨shoot, rfl, Or.inl (Option.isSome_iff_ne_none.mp hbound)⟩
        · intro _
          exact ⟨rfl, rfl, rfl⟩
      · rw [if_neg hbound] at hres
        have hsn : shoot.seedName = none := Option.not_isSome_iff_eq_none.mp hbound
        by_cases hdel : shoot.deletionTimestamp.isSome
        · rw [if_pos hdel] at hres
          cases hres
          constructor
          · intro _
            exact Or.inr ⟨shoot, rfl, Or.inr (Option.isSome_iff_ne_none.mp hdel)⟩
          · intro _
            exact ⟨rfl, rfl, rfl⟩
        · rw [if_neg hdel] at hres
          have hdt : shoot.deletionTimestamp = none := Option.not_isSome_iff_eq_none.mp hdel
          have hrhs : ¬((some shoot : Option Shoot) = none ∨
              ∃ shoot2, (some shoot : Option Shoot) = some shoot2 ∧
                (shoot2.seedName ≠ none ∨ shoot2.deletionTimestamp ≠ none)) := by
            rintro (hno | ⟨shoot2, hs2, hcase⟩)
            · cases hno
            · injection hs2 with hs2
              subst hs2
              rcases hcase with hc | hc
              · exact hc hsn
              · exact hc hdt
          cases hd : determineSeed shoot strategy snap.seeds snap.shoots snap.cloudProfile iter with
          | none => simp only [hd] at hres; exact Option.noConfusion hres
          | some r =>
            cases r with
            | error e =>
              simp only [hd] at hres
              cases hres
              constructor
              · rintro ⟨h1, -, -⟩
                cases h1
              · intro hr
                exact absurd hr hrhs
            | ok seed =>
              simp only [hd] at hres
              cases hres
              constructor
              · rintro ⟨-, h2, -⟩
                cases h2
              · intro hr
                exact absurd hr hrhs
  · intro shoot n _ _
    unfold reconcile
    simp [noopRes]

/-- Witness for C4 at the quiet pre-bound snapshot. -/
theorem done_quietly_iff_prebound_deleting_or_missing_witness :
    ((noopRes.err = none ∧ noopRes.events = [] ∧ noopRes.write = none) ↔
      (eSnap.shoot = none ∨
        ∃ shoot, eSnap.shoot = some shoot ∧
          (shoot.seedName ≠ none ∨ shoot.deletionTimestamp ≠ none))) ∧
    (∀ shoot n, eSnap.shoot = some shoot → noopRes.write = some n →
      reconcile { eSnap with shoot := some { shoot with seedName := some n } } sameRegionStrategy
          (fun l => l) =
        some noopRes) :=
  done_quietly_iff_prebound_deleting_or_missing eSnap sameRegionStrategy (fun l => l) noopRes rfl

end Gardener
